import Mathlib

/-!
Shallow embedding, in Lean 4, of the action-decision-and-execution scheduler of
the `aigamestore_harness` repository, together with proofs of the behavioural
claims made by its specification.

The embedded source files are:
* `src/utils/parsing_utils.py` (`KEY_MAPPING`, `parse_actions`);
* the action-execution segment loop of `run_one_game` together with
  `execute_action_playwright` and `execute_hold_actions_playwright` from
  `src/run_llm_eval.py`;
* the end-of-game handling block of `run_one_game` (`src/run_llm_eval.py`);
* `_is_quota_limit_error` and `_generate_content_with_retry` from
  `src/llm_interface/api/google_interface.py`;
* the token-usage computation of `AnthropicInterface.generate`
  (`src/llm_interface/api/anthropic_interface.py`) and `estimate_tokens`
  (`src/utils/llm_interface_utils/token_counting.py`);
* `append_history_entry` from `src/utils/gameplay_utils.py` and the
  active/archival history discipline of `run_one_game`.

Python machine effects are modelled explicitly: `time.sleep` calls become
labelled wait events measured in milliseconds, keyboard dispatch becomes
labelled key events, exceptions become `Except`, and `dict`/`list` values
produced by `json.loads` become an explicit `Json` inductive type.
-/

namespace AigamestoreHarness

/-! ## Python JSON values

`json.loads` produces `None`, booleans, numbers, strings, lists and dicts.
Integers are kept exactly; a number literal with a fraction or exponent part
(which Python would turn into a `float`) is kept as its raw lexeme, which is
enough for this development because no claim depends on float arithmetic. -/

inductive Json where
  | null : Json
  | bool (b : Bool) : Json
  | num (n : Int) : Json
  | numRaw (lexeme : String) : Json
  | str (s : String) : Json
  | arr (xs : List Json) : Json
  | obj (kvs : List (String × Json)) : Json

/-- Python truthiness of a parsed JSON value: `None`, `False`, `0`, `""`,
`[]` and `{}` are falsy, everything else is truthy.  A raw float lexeme is
falsy exactly when its mantissa consists of zero digits only. -/
def pyTruthy : Json → Bool
  | Json.null => false
  | Json.bool b => b
  | Json.num n => n != 0
  | Json.numRaw lex => lex.data.any (fun c => c.isDigit && c != '0')
  | Json.str s => s != ""
  | Json.arr xs => !xs.isEmpty
  | Json.obj kvs => !kvs.isEmpty

/-! ## A model of `json.loads`

A fuel-indexed recursive-descent parser for the JSON grammar accepted by
Python's `json.loads`: optional ASCII whitespace around a single value, where
a value is `null`, `true`, `false`, a number (no leading zeros, optional
fraction and exponent), a double-quoted string with the standard escapes, an
array, or an object.  Trailing garbage makes the parse fail, as in Python. -/

def jsonWs (c : Char) : Bool :=
  c = ' ' || c = '\t' || c = '\n' || c = '\r'

def skipWs (cs : List Char) : List Char :=
  cs.dropWhile jsonWs

def hexDigit (c : Char) : Bool :=
  c.isDigit || ('a' ≤ c && c ≤ 'f') || ('A' ≤ c && c ≤ 'F')

def listStartsWith : List Char → List Char → Bool
  | [], _ => true
  | _ :: _, [] => false
  | p :: ps, c :: cs => p = c && listStartsWith ps cs

/-- Digits of a decimal integer to its value. -/
def digitsVal (ds : List Char) : Nat :=
  ds.foldl (fun acc c => acc * 10 + (c.toNat - '0'.toNat)) 0

/-- Consume one JSON string body (the opening quote already consumed),
returning the decoded string and the remaining characters. -/
def parseStringBody : Nat → List Char → Option (String × List Char)
  | 0, _ => none
  | _, [] => none
  | fuel + 1, c :: cs =>
    if c = '"' then
      some ("", cs)
    else if c = '\\' then
      match cs with
      | [] => none
      | e :: cs2 =>
        let dec : Option (Char × List Char) :=
          if e = '"' then some ('"', cs2)
          else if e = '\\' then some ('\\', cs2)
          else if e = '/' then some ('/', cs2)
          else if e = 'b' then some ('\x08', cs2)
          else if e = 'f' then some ('\x0c', cs2)
          else if e = 'n' then some ('\n', cs2)
          else if e = 'r' then some ('\r', cs2)
          else if e = 't' then some ('\t', cs2)
          else if e = 'u' then
            match cs2 with
            | h1 :: h2 :: h3 :: h4 :: cs3 =>
              if hexDigit h1 && hexDigit h2 && hexDigit h3 && hexDigit h4 then
                let hv : Char → Nat := fun c =>
                  if c.isDigit then c.toNat - '0'.toNat
                  else if 'a' ≤ c && c ≤ 'f' then c.toNat - 'a'.toNat + 10
                  else c.toNat - 'A'.toNat + 10
                let n := ((hv h1 * 16 + hv h2) * 16 + hv h3) * 16 + hv h4
                some (Char.ofNat n, cs3)
              else none
            | _ => none
          else none
        match dec with
        | none => none
        | some (d, rest) =>
          match parseStringBody fuel rest with
          | none => none
          | some (s, rest2) => some (String.mk (d :: s.data), rest2)
    else
      match parseStringBody fuel cs with
      | none => none
      | some (s, rest) => some (String.mk (c :: s.data), rest)

/-- Optional exponent part of a JSON number, then assembly of the token:
a lexeme with a fraction or exponent is a Python float (kept raw), otherwise
an exact integer. -/
def parseNumberExp (negSign : Bool) (intDigits : List Char)
    (fracDigits : Option (List Char)) (cs : List Char) : Option (Json × List Char) :=
  let mkTok (expPart : Option (List Char)) (rest : List Char) : Option (Json × List Char) :=
    let lexeme : List Char :=
      (if negSign then ['-'] else []) ++ intDigits
        ++ (match fracDigits with | some fd => '.' :: fd | none => [])
        ++ (match expPart with | some ep => ep | none => [])
    if fracDigits.isSome || expPart.isSome then
      some (Json.numRaw (String.mk lexeme), rest)
    else
      let v : Int := Int.ofNat (digitsVal intDigits)
      some (Json.num (if negSign then -v else v), rest)
  match cs with
  | c :: cs1 =>
    if c = 'e' || c = 'E' then
      let (sgn, cs2) :=
        match cs1 with
        | s :: rest => if s = '+' || s = '-' then ([s], rest) else ([], cs1)
        | [] => ([], cs1)
      let expDigits := cs2.takeWhile Char.isDigit
      let cs3 := cs2.dropWhile Char.isDigit
      if expDigits.isEmpty then none
      else mkTok (some (c :: (sgn ++ expDigits))) cs3
    else mkTok none cs
  | [] => mkTok none cs

/-- Consume one JSON number starting at `cs` (first character already known to
be a digit or `-`).  Returns the parsed value and the remaining characters. -/
def parseNumberTok (cs : List Char) : Option (Json × List Char) :=
  let (negSign, cs1) :=
    match cs with
    | '-' :: rest => (true, rest)
    | _ => (false, cs)
  let intDigits := cs1.takeWhile Char.isDigit
  let cs2 := cs1.dropWhile Char.isDigit
  if intDigits.isEmpty then none
  else if intDigits.length > 1 && intDigits.headD '0' = '0' then none
  else
    let fracDigits :=
      match cs2 with
      | '.' :: rest => some (rest.takeWhile Char.isDigit, rest.dropWhile Char.isDigit)
      | _ => none
    match fracDigits with
    | some (fd, _) =>
      if fd.isEmpty then none else
      let cs3 := match cs2 with
        | _ :: rest => rest.dropWhile Char.isDigit
        | [] => []
      parseNumberExp negSign intDigits (some fd) cs3
    | none => parseNumberExp negSign intDigits none cs2

mutual

/-- One JSON value (leading whitespace allowed). -/
def parseJsonVal : Nat → List Char → Option (Json × List Char)
  | 0, _ => none
  | fuel + 1, cs =>
    let cs := skipWs cs
    if listStartsWith "null".data cs then some (Json.null, cs.drop 4)
    else if listStartsWith "true".data cs then some (Json.bool true, cs.drop 4)
    else if listStartsWith "false".data cs then some (Json.bool false, cs.drop 5)
    else
      match cs with
      | '"' :: rest =>
        match parseStringBody (rest.length + 1) rest with
        | none => none
        | some (s, rest2) => some (Json.str s, rest2)
      | '[' :: rest =>
        (match skipWs rest with
         | ']' :: rest2 => some (Json.arr [], rest2)
         | _ =>
           match parseArrayItems fuel rest with
           | none => none
           | some (xs, rest2) => some (Json.arr xs, rest2))
      | '{' :: rest =>
        (match skipWs rest with
         | '}' :: rest2 => some (Json.obj [], rest2)
         | _ =>
           match parseObjItems fuel rest with
           | none => none
           | some (kvs, rest2) => some (Json.obj kvs, rest2))
      | c :: _ =>
        if c = '-' || c.isDigit then parseNumberTok cs else none
      | [] => none

/-- Comma-separated array items; the closing `]` is consumed here. -/
def parseArrayItems : Nat → List Char → Option (List Json × List Char)
  | 0, _ => none
  | fuel + 1, cs =>
    match parseJsonVal fuel cs with
    | none => none
    | some (x, rest) =>
      match skipWs rest with
      | ',' :: rest2 =>
        (match parseArrayItems fuel rest2 with
         | none => none
         | some (xs, rest3) => some (x :: xs, rest3))
      | ']' :: rest2 => some ([x], rest2)
      | _ => none

/-- Comma-separated object members; the closing brace is consumed here. -/
def parseObjItems : Nat → List Char → Option (List (String × Json) × List Char)
  | 0, _ => none
  | fuel + 1, cs =>
    match skipWs cs with
    | '"' :: rest =>
      (match parseStringBody (rest.length + 1) rest with
       | none => none
       | some (k, rest2) =>
         match skipWs rest2 with
         | ':' :: rest3 =>
           (match parseJsonVal fuel rest3 with
            | none => none
            | some (v, rest4) =>
              match skipWs rest4 with
              | ',' :: rest5 =>
                (match parseObjItems fuel rest5 with
                 | none => none
                 | some (kvs, rest6) => some ((k, v) :: kvs, rest6))
              | '}' :: rest5 => some ([(k, v)], rest5)
              | _ => none)
         | _ => none)
    | _ => none

end

/-- Model of Python's `json.loads`: parse a full document, requiring that only
whitespace remains afterwards.  Returns `none` where Python raises
`json.JSONDecodeError`. -/
def jsonLoads (s : String) : Option Json :=
  match parseJsonVal (2 * s.length + 8) s.data with
  | none => none
  | some (v, rest) => if (skipWs rest).isEmpty then some v else none

/-! ## `src/utils/parsing_utils.py` -/

/-- Value of a `KEY_MAPPING` entry: `None` (the `"NOOP"` entry), a plain key
code (an `int` in Python), or a `("HOLD", code)` tuple. -/
inductive ActionCode where
  | noop : ActionCode
  | instant (code : Nat) : ActionCode
  | hold (code : Nat) : ActionCode
deriving Repr, DecidableEq

/-- `KEY_MAPPING` from `src/utils/parsing_utils.py` (lines 7-28), as an
association list in source order. -/
def KEY_MAPPING : List (String × ActionCode) :=
  [("UP", ActionCode.instant 38),
   ("DOWN", ActionCode.instant 40),
   ("LEFT", ActionCode.instant 37),
   ("RIGHT", ActionCode.instant 39),
   ("SPACE", ActionCode.instant 32),
   ("ENTER", ActionCode.instant 13),
   ("ESC", ActionCode.instant 27),
   ("NOOP", ActionCode.noop),
   ("A", ActionCode.instant 65), ("B", ActionCode.instant 66),
   ("C", ActionCode.instant 67), ("D", ActionCode.instant 68),
   ("E", ActionCode.instant 69), ("F", ActionCode.instant 70),
   ("G", ActionCode.instant 71), ("H", ActionCode.instant 72),
   ("I", ActionCode.instant 73), ("J", ActionCode.instant 74),
   ("K", ActionCode.instant 75), ("L", ActionCode.instant 76),
   ("M", ActionCode.instant 77), ("N", ActionCode.instant 78),
   ("O", ActionCode.instant 79), ("P", ActionCode.instant 80),
   ("Q", ActionCode.instant 81), ("R", ActionCode.instant 82),
   ("S", ActionCode.instant 83), ("T", ActionCode.instant 84),
   ("U", ActionCode.instant 85), ("V", ActionCode.instant 86),
   ("W", ActionCode.instant 87), ("X", ActionCode.instant 88),
   ("Y", ActionCode.instant 89), ("Z", ActionCode.instant 90),
   ("HOLD_UP", ActionCode.hold 38),
   ("HOLD_DOWN", ActionCode.hold 40),
   ("HOLD_LEFT", ActionCode.hold 37),
   ("HOLD_RIGHT", ActionCode.hold 39),
   ("HOLD_SPACE", ActionCode.hold 32)]

/-- Python `name in KEY_MAPPING` / `KEY_MAPPING[name]` combined lookup. -/
def lookupKeyMapping (name : String) : Option ActionCode :=
  (KEY_MAPPING.find? (fun kv => kv.1 = name)).map (fun kv => kv.2)

mutual

/-- Python `repr` of a parsed JSON value, used when a value appears inside a
list or dict being converted by `str`.  String escaping inside `repr` is not
reproduced exactly (no claim depends on it); the bracketed shape is, which is
what guarantees such values never match a `KEY_MAPPING` key. -/
def pyRepr : Json → String
  | Json.null => "None"
  | Json.bool true => "True"
  | Json.bool false => "False"
  | Json.num n => toString n
  | Json.numRaw lexeme => lexeme
  | Json.str s => "'" ++ s ++ "'"
  | Json.arr xs => "[" ++ String.intercalate ", " (pyReprList xs) ++ "]"
  | Json.obj kvs => "\x7b" ++ String.intercalate ", " (pyReprKvs kvs) ++ "\x7d"

def pyReprList : List Json → List String
  | [] => []
  | x :: xs => pyRepr x :: pyReprList xs

def pyReprKvs : List (String × Json) → List String
  | [] => []
  | (k, v) :: kvs => ("'" ++ k ++ "': " ++ pyRepr v) :: pyReprKvs kvs

end

/-- Python `str` of a parsed JSON value (differs from `repr` only on
top-level strings, which are not quoted). -/
def pyStr : Json → String
  | Json.str s => s
  | v => pyRepr v

/-- Python `str.upper` restricted to ASCII, which covers every key of
`KEY_MAPPING`. -/
def pyUpper (s : String) : String :=
  String.mk (s.data.map Char.toUpper)

/-- Whitespace stripped by Python `str.strip` (ASCII fragment). -/
def pyStripWs (c : Char) : Bool :=
  c = ' ' || c = '\t' || c = '\n' || c = '\r' || c = '\x0b' || c = '\x0c'

/-- Python `str.strip()`. -/
def pyStrip (s : String) : String :=
  String.mk (((s.data.dropWhile pyStripWs).reverse.dropWhile pyStripWs).reverse)

/-- First index at which `pat` occurs in `cs`, if any. -/
def findSub (pat : List Char) : List Char → Option Nat
  | [] => if pat.isEmpty then some 0 else none
  | c :: cs =>
    if listStartsWith pat (c :: cs) then some 0
    else (findSub pat cs).map (fun i => i + 1)

/-- `re.search(r'<keys>(.*?)</keys>', response_text, re.DOTALL)` followed by
`.group(1).strip()` (parsing_utils.py lines 36-39): the text between the first
`<keys>` and the first `</keys>` after it, stripped.  If the first `<keys>`
has no later `</keys>` then no later `<keys>` has one either, so the regex
finds no match at all. -/
def keysBlock (responseText : String) : Option String :=
  match findSub "<keys>".data responseText.data with
  | none => none
  | some i =>
    let after := responseText.data.drop (i + 6)
    match findSub "</keys>".data after with
    | none => none
    | some j => some (pyStrip (String.mk (after.take j)))

/-- Lines 43-44 of parsing_utils.py: replace every single quote by a double
quote, but only when the block has single quotes and no double quotes. -/
def normalizeQuotes (s : String) : String :=
  if s.data.contains '\'' && !s.data.contains '"' then
    String.mk (s.data.map (fun c => if c = '\'' then '"' else c))
  else s

/-- The JSON value the `<keys>` block of `responseText` decodes to, after the
conditional quote normalization (the value bound to `action_segments` at
parsing_utils.py line 46), if the block exists and decodes. -/
def loadedKeysJson (responseText : String) : Option Json :=
  match keysBlock responseText with
  | none => none
  | some inner => jsonLoads (normalizeQuotes inner)

/-- Lines 53-58 of parsing_utils.py: pad a short segment list with `["NOOP"]`
entries, truncate a long one to its first 5 entries. -/
def normalizeSegments (segs : List Json) : List Json :=
  if segs.length ≠ 5 then
    if segs.length < 5 then
      segs ++ List.replicate (5 - segs.length) (Json.arr [Json.str "NOOP"])
    else segs.take 5
  else segs

/-- Lines 67-77 of parsing_utils.py: convert one element of a segment to an
action code, or drop it.  `None` becomes the name `"NOOP"`; the name is
`str(...).upper()`-ed and looked up in `KEY_MAPPING` (whose `"NOOP"` entry is
`None`, so the `elif action_name == "NOOP"` branch is unreachable but is kept
here for faithfulness). -/
def parseSegmentItem (item : Json) : Option ActionCode :=
  let name0 := match item with
    | Json.null => "NOOP"
    | v => pyStr v
  let name := pyUpper name0
  match lookupKeyMapping name with
  | some code => some code
  | none => if name = "NOOP" then some ActionCode.noop else none

/-- Lines 61-79 of parsing_utils.py: one segment.  A non-list segment is
wrapped in a singleton list if truthy, else replaced by `["NOOP"]`; every
element is then converted or dropped by `parseSegmentItem`. -/
def parseSegment (seg : Json) : List ActionCode :=
  let items := match seg with
    | Json.arr xs => xs
    | v => if pyTruthy v then [v] else [Json.str "NOOP"]
  items.filterMap parseSegmentItem

/-- Lines 46-87 of parsing_utils.py given the outcome of `json.loads`:
decode failure (`JSONDecodeError`) yields `[[None]] * 5`; a decoded non-list
yields `[]` (lines 49-51); a decoded list is padded or truncated to 5
segments and each segment converted by `parseSegment`.  The success path
raises no exception in Python (string conversion and uppercasing are total),
so the `except` fallbacks correspond exactly to the decode failure case. -/
def parseDecoded : Option Json → List (List ActionCode)
  | none => List.replicate 5 [ActionCode.noop]
  | some (Json.arr segs) => (normalizeSegments segs).map parseSegment
  | some _ => []

/-- `parse_actions` from `src/utils/parsing_utils.py` (lines 30-90).
No `<keys>` block yields `[[None]] * 5` (lines 88-90); otherwise the block is
normalized, decoded and handled by `parseDecoded`. -/
def parse_actions (responseText : String) : List (List ActionCode) :=
  match keysBlock responseText with
  | none => List.replicate 5 [ActionCode.noop]
  | some inner => parseDecoded (jsonLoads (normalizeQuotes inner))

/-! ## `src/run_llm_eval.py`: the action scheduler

The segment-execution loop of `run_one_game` (lines 890-922) is embedded as a
trace of observable events.  `time.sleep(x)` becomes a `wait` event carrying
the requested duration in milliseconds; Playwright keyboard calls become
`press`/`down`/`up` events carrying the Playwright key name. -/

/-- `KEY_CODE_TO_PLAYWRIGHT_KEY` from `src/run_llm_eval.py` (lines 44-58). -/
def KEY_CODE_TO_PLAYWRIGHT_KEY : List (Nat × String) :=
  [(37, "ArrowLeft"), (38, "ArrowUp"), (39, "ArrowRight"), (40, "ArrowDown"),
   (32, " "), (13, "Enter"), (27, "Escape"),
   (65, "a"), (66, "b"), (67, "c"), (68, "d"), (69, "e"), (70, "f"),
   (71, "g"), (72, "h"), (73, "i"), (74, "j"), (75, "k"), (76, "l"),
   (77, "m"), (78, "n"), (79, "o"), (80, "p"), (81, "q"), (82, "r"),
   (83, "s"), (84, "t"), (85, "u"), (86, "v"), (87, "w"), (88, "x"),
   (89, "y"), (90, "z")]

def lookupPlaywrightKey (code : Nat) : Option String :=
  (KEY_CODE_TO_PLAYWRIGHT_KEY.find? (fun kv => kv.1 = code)).map (fun kv => kv.2)

/-- Observable events of the scheduler: a requested sleep (milliseconds), a
discrete press-and-release of a key, and the separate key-down / key-up
halves used for HOLD actions. -/
inductive SchedEv where
  | wait (ms : Nat) : SchedEv
  | press (key : String) : SchedEv
  | down (key : String) : SchedEv
  | up (key : String) : SchedEv
deriving Repr, DecidableEq

def SchedEv.isDown : SchedEv → Bool
  | SchedEv.down _ => true
  | _ => false

def SchedEv.isUp : SchedEv → Bool
  | SchedEv.up _ => true
  | _ => false

/-- Sleep (in milliseconds) requested by one event. -/
def SchedEv.sleepMs : SchedEv → Nat
  | SchedEv.wait ms => ms
  | _ => 0

/-- Trace of `execute_action_playwright(canvas, code)` (run_llm_eval.py lines
236-255): focus the canvas, `time.sleep(0.05)`, then `canvas.press(key)` when
the code is known (an unknown code only logs a warning, after the sleep). -/
def execute_action_playwright (code : Nat) : List SchedEv :=
  [SchedEv.wait 50] ++
    (match lookupPlaywrightKey code with
     | some key => [SchedEv.press key]
     | none => [])

/-- Trace of `execute_hold_actions_playwright(canvas, key_codes, 0.2)`
(run_llm_eval.py lines 258-292): nothing for an empty code list; otherwise
map the codes to Playwright keys (dropping unknown ones), and if any survive,
send every keydown, `time.sleep(duration)`, then every keyup. -/
def execute_hold_actions_playwright (keyCodes : List Nat) (durationMs : Nat) : List SchedEv :=
  if keyCodes.isEmpty then []
  else
    let keys := keyCodes.filterMap lookupPlaywrightKey
    if keys.isEmpty then []
    else keys.map SchedEv.down ++ [SchedEv.wait durationMs] ++ keys.map SchedEv.up

/-- The HOLD codes of a segment, in order (run_llm_eval.py lines 899-902). -/
def segmentHoldCodes (segment : List ActionCode) : List Nat :=
  segment.filterMap (fun a => match a with
    | ActionCode.hold c => some c
    | _ => none)

/-- The instant codes of a segment, in order (run_llm_eval.py lines 903-905);
`None` entries are skipped. -/
def segmentInstantCodes (segment : List ActionCode) : List Nat :=
  segment.filterMap (fun a => match a with
    | ActionCode.instant c => some c
    | _ => none)

/-- Trace of one iteration of the segment loop of `run_one_game`
(run_llm_eval.py lines 894-922): run every instant action through
`execute_action_playwright`, then all HOLD actions through
`execute_hold_actions_playwright` with a 0.2 s duration, and if the segment
had neither, `time.sleep(0.2)`. -/
def segmentTrace (segment : List ActionCode) : List SchedEv :=
  let instantActions := segmentInstantCodes segment
  let holdActions := segmentHoldCodes segment
  (instantActions.map execute_action_playwright).flatten
    ++ execute_hold_actions_playwright holdActions 200
    ++ (if instantActions.isEmpty && holdActions.isEmpty then [SchedEv.wait 200] else [])

/-- Total sleep (milliseconds) requested while executing one segment. -/
def segmentSleepMs (segment : List ActionCode) : Nat :=
  ((segmentTrace segment).map SchedEv.sleepMs).sum

/-- Total sleep (milliseconds) requested while executing a whole plan
(the segment loop only; the pre-loop resume wait is not counted). -/
def planSleepMs (plan : List (List ActionCode)) : Nat :=
  (plan.map segmentSleepMs).sum

/-! ## `src/run_llm_eval.py`: end-of-game handling

Lines 807-842 of `run_one_game`, embedded as a state transition plus the
ordered list of key events issued under the already-updated state.  The
per-episode loop state collects exactly the variables the block touches. -/

structure LoopState (α : Type) where
  episodeCount : Nat
  stepCount : Nat
  frameHistory : List α
  lastRenderFrames : List α
deriving Repr, DecidableEq

/-- Key events issued by the restart path: the defensive Esc unpause
(line 822) and the `restart_game` sequence (lines 410-492): `r` via
`canvas.press`, `r` via `page.keyboard.press`, Enter via
`execute_action_playwright`, Enter via `page.keyboard.press`, then, only when
a verification read still reports the game ended, an aggressive
keydown/keyup retry of `r` and Enter. -/
def restart_game_trace (stillEndedAfterKeys : Bool) : List SchedEv :=
  [SchedEv.press "r", SchedEv.press "r"]
    ++ execute_action_playwright 13
    ++ [SchedEv.press "Enter"]
    ++ (if stillEndedAfterKeys then
          [SchedEv.down "r", SchedEv.up "r", SchedEv.down "Enter", SchedEv.up "Enter"]
        else [])

/-- Lines 807-842 of `run_one_game`: if end-of-game was observed either
before pausing (`game_ended_before_pause`, line 722) or after the model call
(`game_ended`, line 808), increment `episode_count`, zero `step_count`, clear
`frame_history` and `last_render_frames`, and only then issue the Esc
unpause and the restart key sequence.  Returns the state in force when the
events are issued, together with those events. -/
def endOfGameHandling {α : Type} (gameEndedBeforePause gameEnded : Bool)
    (stillEndedAfterKeys : Bool) (st : LoopState α) : LoopState α × List SchedEv :=
  if gameEnded || gameEndedBeforePause then
    ({ episodeCount := st.episodeCount + 1
       stepCount := 0
       frameHistory := []
       lastRenderFrames := [] },
     execute_action_playwright 27 ++ restart_game_trace stillEndedAfterKeys)
  else (st, [])

/-! ## `src/llm_interface/api/google_interface.py`: retry policy -/

/-- The fixed substring table of `_is_quota_limit_error`
(google_interface.py lines 29-36). -/
def quotaPatterns : List String :=
  ["quota", "rate limit", "rate_limit", "429", "resource exhausted", "too many requests"]

/-- ASCII `str.lower`. -/
def pyLower (s : String) : String :=
  String.mk (s.data.map Char.toLower)

/-- `pat` occurs as a contiguous substring of `cs`. -/
def containsSub (pat cs : List Char) : Bool :=
  (findSub pat cs).isSome

/-- `_is_quota_limit_error` from google_interface.py (lines 26-37): lowercase
the error message and test it against the fixed pattern table. -/
def _is_quota_limit_error (errorMsg : String) : Bool :=
  quotaPatterns.any (fun p => containsSub p.data (pyLower errorMsg).data)

/-- One attempt of the underlying vendor call: either a response or an
exception message. -/
def AttemptResult (α : Type) := Except String α

/-- The retry loop of `_generate_content_with_retry` (google_interface.py
lines 230-256), with the vendor call abstracted as a function from the
attempt number to its outcome.  `remaining` counts the attempts still allowed
after the current one, so the loop starts with `remaining = max_retries`;
`attempt < max_retries` in the source is exactly `remaining > 0` here.
Returns the final outcome and the list of sleeps performed (each the fixed
`retry_delay`, recorded in milliseconds). -/
def retryLoop {α : Type} (call : Nat → Except String α) (delayMs : Nat) :
    Nat → Nat → Except String α × List Nat
  | attempt, remaining =>
    match call attempt with
    | Except.ok a => (Except.ok a, [])
    | Except.error e =>
      match remaining with
      | 0 => (Except.error e, [])
      | r + 1 =>
        if _is_quota_limit_error e then
          let rest := retryLoop call delayMs (attempt + 1) r
          (rest.1, delayMs :: rest.2)
        else (Except.error e, [])

/-- `_generate_content_with_retry` with its default arguments
`max_retries=1`, `retry_delay=5.0` (google_interface.py lines 207-259). -/
def _generate_content_with_retry {α : Type} (call : Nat → Except String α)
    (maxRetries : Nat := 1) (delayMs : Nat := 5000) : Except String α × List Nat :=
  retryLoop call delayMs 0 maxRetries

/-! ## Anthropic adapter token accounting

`AnthropicInterface.generate` (anthropic_interface.py lines 259-281) and
`estimate_tokens` (token_counting.py lines 42-68). -/

/-- One content block of an Anthropic response, as far as the adapter
inspects it: a `text` block, a `thinking` block with its content, or any
other block type. -/
inductive AnthropicBlock where
  | text (s : String) : AnthropicBlock
  | thinking (s : String) : AnthropicBlock
  | other : AnthropicBlock
deriving Repr, DecidableEq

/-- Lines 260-267 of anthropic_interface.py: concatenate the `text` blocks;
`reasoning_text` ends as the content of the last `thinking` block, if any
(initialised to `None`). -/
def extractReasoningText (blocks : List AnthropicBlock) : Option String :=
  blocks.foldl (fun acc b => match b with
    | AnthropicBlock.thinking s => some s
    | _ => acc) none

def extractGeneratedText (blocks : List AnthropicBlock) : String :=
  blocks.foldl (fun acc b => match b with
    | AnthropicBlock.text s => acc ++ s
    | _ => acc) ""

/-- `estimate_tokens` from token_counting.py (lines 42-68).  Python's
`int(base_estimate * 1.1)` and `int(base_estimate * 1.2)` are modelled as the
exact `⌊11·b/10⌋` and `⌊12·b/10⌋` (the float rounding of CPython can differ
from the exact value on some inputs; no claim here exercises those model
families at such inputs). -/
def estimate_tokens (text : String) (modelName : Option String) : Nat :=
  let baseEstimate := text.data.length / 4
  match modelName with
  | some name =>
    let lower := pyLower name
    if containsSub "gpt".data lower.data then baseEstimate * 11 / 10
    else if containsSub "llama".data lower.data then baseEstimate
    else if containsSub "qwen".data lower.data || containsSub "deepseek".data lower.data then
      baseEstimate * 12 / 10
    else max 1 baseEstimate
  | none => max 1 baseEstimate

/-- The token-usage dict built by `AnthropicInterface.generate`. -/
structure TokenUsage where
  input_tokens : Nat
  output_tokens : Nat
  total_tokens : Nat
  reasoning_tokens : Option Nat
deriving Repr, DecidableEq

/-- Lines 269-281 of anthropic_interface.py: start from the vendor-reported
input/output counts with `total = input + output`; then, when
`reasoning_text` is truthy (present and non-empty), add an estimated
`reasoning_tokens` entry and fold it into the total. -/
def anthropicTokenUsage (blocks : List AnthropicBlock)
    (inputTokens outputTokens : Nat) (modelName : Option String) : TokenUsage :=
  let base : TokenUsage :=
    { input_tokens := inputTokens
      output_tokens := outputTokens
      total_tokens := inputTokens + outputTokens
      reasoning_tokens := none }
  match extractReasoningText blocks with
  | some r =>
    if r ≠ "" then
      let reasoningTokens := estimate_tokens r modelName
      { base with
          reasoning_tokens := some reasoningTokens
          total_tokens := inputTokens + outputTokens + reasoningTokens }
    else base
  | none => base

/-! ## History bookkeeping

`append_history_entry` (gameplay_utils.py lines 20-23) appends the entry to
the active history and a deep copy of it to the archival history; the cycle
code (run_llm_eval.py lines 859-868) appends the user entry, appends the
assistant entry, then clears only the active history.  Deep copying is
modelled as the identity, which is exact for immutable values. -/

def deepcopy {α : Type} (entry : α) : α := entry

structure Histories (α : Type) where
  content_history : List α
  full_content_history : List α
deriving Repr, DecidableEq

def append_history_entry {α : Type} (entry : α) (h : Histories α) : Histories α :=
  { content_history := h.content_history ++ [entry]
    full_content_history := h.full_content_history ++ [deepcopy entry] }

/-- The history operations the decision loop performs: appending an entry
(via `append_history_entry`) and clearing the active history
(`content_history.clear()`). -/
inductive HistOp (α : Type) where
  | append (entry : α) : HistOp α
  | clearActive : HistOp α

def applyHistOp {α : Type} (h : Histories α) : HistOp α → Histories α
  | HistOp.append e => append_history_entry e h
  | HistOp.clearActive => { h with content_history := [] }

def runHistOps {α : Type} (h : Histories α) : List (HistOp α) → Histories α
  | [] => h
  | op :: ops => runHistOps (applyHistOp h op) ops

/-- The entries appended by a list of history operations, in order. -/
def appendedEntries {α : Type} (ops : List (HistOp α)) : List α :=
  ops.filterMap (fun op => match op with
    | HistOp.append e => some e
    | HistOp.clearActive => none)

/-- A parsed JSON value is a list (`isinstance(action_segments, list)`). -/
def Json.isArr : Json → Bool
  | Json.arr _ => true
  | _ => false

/-! ## Theorems -/

theorem normalizeSegments_length (segs : List Json) :
    (normalizeSegments segs).length = 5 := by
  unfold normalizeSegments
  by_cases h5 : segs.length = 5
  · simp [h5]
  · rw [if_pos h5]
    by_cases hlt : segs.length < 5
    · rw [if_pos hlt]
      simp only [List.length_append, List.length_replicate]
      omega
    · rw [if_neg hlt]
      simp only [List.length_take]
      omega

theorem parse_actions_of_block (s inner : String) (hk : keysBlock s = some inner) :
    parse_actions s = parseDecoded (jsonLoads (normalizeQuotes inner)) := by
  unfold parse_actions
  rw [hk]

theorem loadedKeysJson_of_block (s inner : String) (hk : keysBlock s = some inner) :
    loadedKeysJson s = jsonLoads (normalizeQuotes inner) := by
  unfold loadedKeysJson
  rw [hk]

/-- C1. The claim asserts a length-5 plan for *every* input, including a
`<keys>` block whose JSON decodes to a non-array; but parsing_utils.py lines
49-51 return the empty list in exactly that case.  The corrected statement:
the plan has length exactly 5 unless the block decodes to a non-array JSON
value, in which case `parse_actions` returns the empty plan. -/
theorem C1_plan_length (s : String) :
    (parse_actions s).length = 5 ∨
      (∃ j, loadedKeysJson s = some j ∧ j.isArr = false ∧ parse_actions s = []) := by
  cases hk : keysBlock s with
  | none =>
    left
    unfold parse_actions
    rw [hk]
    rfl
  | some inner =>
    rw [parse_actions_of_block s inner hk, loadedKeysJson_of_block s inner hk]
    cases hj : jsonLoads (normalizeQuotes inner) with
    | none => left; rfl
    | some j =>
      cases j with
      | arr segs =>
        left
        simp [parseDecoded, normalizeSegments_length]
      | null => right; exact ⟨Json.null, rfl, rfl, rfl⟩
      | bool b => right; exact ⟨Json.bool b, rfl, rfl, rfl⟩
      | num n => right; exact ⟨Json.num n, rfl, rfl, rfl⟩
      | numRaw lex => right; exact ⟨Json.numRaw lex, rfl, rfl, rfl⟩
      | str t => right; exact ⟨Json.str t, rfl, rfl, rfl⟩
      | obj kvs => right; exact ⟨Json.obj kvs, rfl, rfl, rfl⟩

/-- C1, counterexample to the claim as stated: the block `1` decodes to a
non-array JSON value and `parse_actions` returns the empty plan, of length 0,
not 5. -/
theorem C1_counterexample :
    loadedKeysJson "<keys>1</keys>" = some (Json.num 1) ∧
      parse_actions "<keys>1</keys>" = [] ∧
      (parse_actions "<keys>1</keys>").length ≠ 5 := by
  refine ⟨rfl, rfl, ?_⟩
  decide

/-- C2. The claim expects the `"NOOP"` token to yield an *empty* segment, but
`"NOOP"` is a key of `KEY_MAPPING` with value `None`, so line 73 of
parsing_utils.py appends the `None` sentinel to the segment (the
`elif action_name == "NOOP"` branch is unreachable).  Corrected statement:
the example input yields `[[UP], [LEFT, RIGHT], [None], [Hold(SPACE)], [R]]`,
and in general any token that uppercases to `"NOOP"` contributes the `None`
sentinel to its segment. -/
theorem C2_parse_example :
    parse_actions "<keys>[[\"UP\"],[\"LEFT\",\"RIGHT\"],[\"NOOP\"],[\"HOLD_SPACE\"],[\"R\"]]</keys>"
      = [[ActionCode.instant 38],
         [ActionCode.instant 37, ActionCode.instant 39],
         [ActionCode.noop],
         [ActionCode.hold 32],
         [ActionCode.instant 82]] ∧
    ∀ tok : String, pyUpper tok = "NOOP" →
      parseSegmentItem (Json.str tok) = some ActionCode.noop := by
  constructor
  · rfl
  · intro tok htok
    simp [parseSegmentItem, pyStr, htok, lookupKeyMapping, KEY_MAPPING]

theorem C2_parse_example_witness :
    pyUpper "noop" = "NOOP" ∧
      parseSegmentItem (Json.str "noop") = some ActionCode.noop :=
  ⟨by decide, C2_parse_example.2 "noop" (by decide)⟩

/-- C2, counterexample to the claim as stated: the segment produced for the
`"NOOP"` token is `[None]`, not the empty segment. -/
theorem C2_counterexample :
    (parse_actions "<keys>[[\"UP\"],[\"LEFT\",\"RIGHT\"],[\"NOOP\"],[\"HOLD_SPACE\"],[\"R\"]]</keys>")[2]?
      = some [ActionCode.noop] ∧
    (parse_actions "<keys>[[\"UP\"],[\"LEFT\",\"RIGHT\"],[\"NOOP\"],[\"HOLD_SPACE\"],[\"R\"]]</keys>")[2]?
      ≠ some [] := by
  constructor
  · rfl
  · decide

/-- C7.  `parse_actions` fails open: with no `<keys>` block, and with a block
that fails JSON decoding after the conditional quote normalization, it
returns `[[None]] * 5` — five segments each holding the `None` sentinel
(the code's representation of a NOOP segment).  The Lean embedding is a total
function, reflecting that the Python body catches every exception on these
paths. -/
theorem C7_parse_fail_open (s : String) :
    (keysBlock s = none → parse_actions s = List.replicate 5 [ActionCode.noop]) ∧
    (∀ inner, keysBlock s = some inner → jsonLoads (normalizeQuotes inner) = none →
      parse_actions s = List.replicate 5 [ActionCode.noop]) := by
  constructor
  · intro hk
    unfold parse_actions
    rw [hk]
  · intro inner hk hj
    rw [parse_actions_of_block s inner hk, hj]
    rfl

theorem C7_parse_fail_open_witness :
    (keysBlock "no tags here" = none ∧
      parse_actions "no tags here" = List.replicate 5 [ActionCode.noop]) ∧
    (keysBlock "<keys>[[</keys>" = some "[[" ∧
      (jsonLoads (normalizeQuotes "[[")).isNone = true ∧
      parse_actions "<keys>[[</keys>" = List.replicate 5 [ActionCode.noop]) :=
  ⟨⟨by decide, (C7_parse_fail_open "no tags here").1 (by decide)⟩,
   ⟨by decide, by decide,
     (C7_parse_fail_open "<keys>[[</keys>").2 "[[" (by decide)
       (Option.isNone_iff_eq_none.mp (by decide))⟩⟩

/-- C8.  When the `<keys>` block decodes to an array of `n` segment arrays,
fewer than 5 segments are right-padded with `["NOOP"]` (each parsing to the
`[None]` NOOP segment) after the first `n` parsed segments, and more than 5
are truncated to the first 5 in order. -/
theorem C8_pad_truncate (s inner : String) (segs : List Json)
    (hk : keysBlock s = some inner)
    (hj : jsonLoads (normalizeQuotes inner) = some (Json.arr segs)) :
    (segs.length < 5 →
      parse_actions s
        = segs.map parseSegment ++ List.replicate (5 - segs.length) [ActionCode.noop]) ∧
    (segs.length > 5 →
      parse_actions s = (segs.take 5).map parseSegment) := by
  have hnoop : parseSegment (Json.arr [Json.str "NOOP"]) = [ActionCode.noop] := by decide
  have hpa : parse_actions s = (normalizeSegments segs).map parseSegment := by
    rw [parse_actions_of_block s inner hk, hj]
    rfl
  constructor
  · intro hlt
    rw [hpa]
    unfold normalizeSegments
    have h5 : segs.length ≠ 5 := by omega
    rw [if_pos h5, if_pos hlt]
    simp [List.map_append, List.map_replicate, hnoop]
  · intro hgt
    rw [hpa]
    unfold normalizeSegments
    have h5 : segs.length ≠ 5 := by omega
    have hlt : ¬ segs.length < 5 := by omega
    rw [if_pos h5, if_neg hlt]

theorem C8_pad_truncate_witness :
    (keysBlock "<keys>[[\"UP\"]]</keys>" = some "[[\"UP\"]]" ∧
      jsonLoads (normalizeQuotes "[[\"UP\"]]") = some (Json.arr [Json.arr [Json.str "UP"]]) ∧
      parse_actions "<keys>[[\"UP\"]]</keys>"
        = [Json.arr [Json.str "UP"]].map parseSegment ++ List.replicate 4 [ActionCode.noop]) ∧
    (keysBlock "<keys>[[1],[2],[3],[4],[5],[6]]</keys>" = some "[[1],[2],[3],[4],[5],[6]]" ∧
      parse_actions "<keys>[[1],[2],[3],[4],[5],[6]]</keys>"
        = ([Json.arr [Json.num 1], Json.arr [Json.num 2], Json.arr [Json.num 3],
            Json.arr [Json.num 4], Json.arr [Json.num 5], Json.arr [Json.num 6]].take 5).map
            parseSegment) :=
  ⟨⟨by decide, rfl,
    (C8_pad_truncate "<keys>[[\"UP\"]]</keys>" "[[\"UP\"]]" [Json.arr [Json.str "UP"]]
      (by decide) rfl).1 (by decide)⟩,
   ⟨by decide,
    (C8_pad_truncate "<keys>[[1],[2],[3],[4],[5],[6]]</keys>" "[[1],[2],[3],[4],[5],[6]]"
      [Json.arr [Json.num 1], Json.arr [Json.num 2], Json.arr [Json.num 3],
       Json.arr [Json.num 4], Json.arr [Json.num 5], Json.arr [Json.num 6]]
      (by decide) rfl).2 (by decide)⟩⟩

theorem execute_action_playwright_sleep (c : Nat) :
    ((execute_action_playwright c).map SchedEv.sleepMs).sum = 50 := by
  unfold execute_action_playwright
  cases lookupPlaywrightKey c <;> simp [SchedEv.sleepMs]

theorem execute_action_playwright_no_downup (c : Nat) (e : SchedEv)
    (he : e ∈ execute_action_playwright c) : e.isDown = false ∧ e.isUp = false := by
  unfold execute_action_playwright at he
  cases hl : lookupPlaywrightKey c with
  | none =>
    rw [hl] at he
    simp at he
    simp [he, SchedEv.isDown, SchedEv.isUp]
  | some k =>
    rw [hl] at he
    simp at he
    rcases he with he | he <;> simp [he, SchedEv.isDown, SchedEv.isUp]

theorem instant_block_sleep (codes : List Nat) :
    (((codes.map execute_action_playwright).flatten.map SchedEv.sleepMs).sum)
      = 50 * codes.length := by
  induction codes with
  | nil => simp
  | cons c rest ih =>
    simp only [List.map_cons, List.flatten_cons, List.map_append, List.sum_append, ih,
      execute_action_playwright_sleep, List.length_cons]
    ring

theorem instant_block_no_downup (codes : List Nat) (e : SchedEv)
    (he : e ∈ (codes.map execute_action_playwright).flatten) :
    e.isDown = false ∧ e.isUp = false := by
  rw [List.mem_flatten] at he
  obtain ⟨l, hl, hel⟩ := he
  rw [List.mem_map] at hl
  obtain ⟨c, _, rfl⟩ := hl
  exact execute_action_playwright_no_downup c e hel

theorem hold_block_sleep (codes : List Nat) :
    ((execute_hold_actions_playwright codes 200).map SchedEv.sleepMs).sum
      = if codes.isEmpty then 0
        else if (codes.filterMap lookupPlaywrightKey).isEmpty then 0 else 200 := by
  unfold execute_hold_actions_playwright
  by_cases h0 : codes.isEmpty
  · simp [h0]
  · rw [if_neg h0, if_neg h0]
    by_cases hk : (codes.filterMap lookupPlaywrightKey).isEmpty
    · simp [hk]
    · rw [if_neg hk, if_neg hk]
      simp only [List.map_append, List.sum_append, List.map_map]
      have hd : ∀ l : List String, ((l.map SchedEv.down).map SchedEv.sleepMs).sum = 0 := by
        intro l
        apply List.sum_eq_zero
        intro x hx
        simp only [List.map_map, List.mem_map] at hx
        obtain ⟨k, _, rfl⟩ := hx
        rfl
      have hu : ∀ l : List String, ((l.map SchedEv.up).map SchedEv.sleepMs).sum = 0 := by
        intro l
        apply List.sum_eq_zero
        intro x hx
        simp only [List.map_map, List.mem_map] at hx
        obtain ⟨k, _, rfl⟩ := hx
        rfl
      have hd' := hd (codes.filterMap lookupPlaywrightKey)
      have hu' := hu (codes.filterMap lookupPlaywrightKey)
      simp only [List.map_map] at hd' hu'
      simp [hd', hu', SchedEv.sleepMs]

/-- Closed form for the sleep requested by one segment of the scheduler
loop: 50 ms per instant action, 200 ms when there is at least one
recognizable HOLD action, 200 ms when the segment has no action at all. -/
theorem segmentSleepMs_eq (seg : List ActionCode) :
    segmentSleepMs seg
      = 50 * (segmentInstantCodes seg).length
        + (if (segmentHoldCodes seg).isEmpty then 0
           else if ((segmentHoldCodes seg).filterMap lookupPlaywrightKey).isEmpty then 0
           else 200)
        + (if (segmentInstantCodes seg).isEmpty && (segmentHoldCodes seg).isEmpty
           then 200 else 0) := by
  unfold segmentSleepMs segmentTrace
  simp only [List.map_append, List.sum_append, instant_block_sleep, hold_block_sleep]
  by_cases hcond : (segmentInstantCodes seg).isEmpty && (segmentHoldCodes seg).isEmpty
  · rw [if_pos hcond, if_pos hcond]
    rfl
  · rw [if_neg hcond, if_neg hcond]
    rfl

/-- C3. The claim asserts that *every* segment consumes at least the full
0.2 s, but the segment loop (run_llm_eval.py lines 890-922) requests no
segment-duration wait for a segment consisting only of instant actions: only
the 0.05 s focus sleep of each key press.  Corrected statement: a segment
with at least one recognizable HOLD action, and a segment with no action at
all, request at least 200 ms of sleep; a segment with instant actions only
requests exactly 50 ms per instant action. -/
theorem C3_segment_sleep (seg : List ActionCode) :
    (((segmentHoldCodes seg).filterMap lookupPlaywrightKey ≠ [] ∨
        (segmentInstantCodes seg = [] ∧ segmentHoldCodes seg = [])) →
      200 ≤ segmentSleepMs seg) ∧
    (segmentHoldCodes seg = [] → segmentInstantCodes seg ≠ [] →
      segmentSleepMs seg = 50 * (segmentInstantCodes seg).length) := by
  rw [segmentSleepMs_eq seg]
  constructor
  · rintro (hkeys | ⟨hi, hh⟩)
    · have hne : segmentHoldCodes seg ≠ [] := by
        intro h
        rw [h] at hkeys
        exact hkeys rfl
      rw [if_neg (by simpa using hne), if_neg (by simpa using hkeys)]
      omega
    · rw [hi, hh]
      simp
  · intro hh hi
    rw [hh]
    have hi' : (segmentInstantCodes seg).isEmpty = false := by simpa using hi
    simp [hi']

theorem C3_segment_sleep_witness :
    200 ≤ segmentSleepMs [] ∧
      segmentSleepMs [ActionCode.instant 38]
        = 50 * (segmentInstantCodes [ActionCode.instant 38]).length :=
  ⟨(C3_segment_sleep []).1 (Or.inr ⟨rfl, rfl⟩),
   (C3_segment_sleep [ActionCode.instant 38]).2 (by decide) (by decide)⟩

/-- C3, counterexample to the claim as stated: the parsed all-instant plan
`[["UP"]] * 5` requests 5 × 50 ms = 250 ms of sleep in total, well under the
claimed 5 × 200 ms; no remaining-segment-time sleep exists in the loop for
instant-only segments. -/
theorem C3_counterexample :
    parse_actions "<keys>[[\"UP\"],[\"UP\"],[\"UP\"],[\"UP\"],[\"UP\"]]</keys>"
      = List.replicate 5 [ActionCode.instant 38] ∧
    planSleepMs (List.replicate 5 [ActionCode.instant 38]) = 250 ∧
    (250 : Nat) < 5 * 200 := by
  refine ⟨rfl, ?_, by decide⟩
  decide

theorem execute_hold_trace_of_keys (codes : List Nat) (durationMs : Nat)
    (h0 : codes ≠ []) (hk : codes.filterMap lookupPlaywrightKey ≠ []) :
    execute_hold_actions_playwright codes durationMs
      = (codes.filterMap lookupPlaywrightKey).map SchedEv.down
        ++ [SchedEv.wait durationMs]
        ++ (codes.filterMap lookupPlaywrightKey).map SchedEv.up := by
  unfold execute_hold_actions_playwright
  rw [if_neg (by simpa using h0), if_neg (by simpa using hk)]

theorem execute_hold_trace_of_no_keys (codes : List Nat) (durationMs : Nat)
    (hk : codes.filterMap lookupPlaywrightKey = []) :
    execute_hold_actions_playwright codes durationMs = [] := by
  unfold execute_hold_actions_playwright
  by_cases h0 : codes.isEmpty
  · rw [if_pos h0]
  · rw [if_neg h0, if_pos (by simpa using hk)]

/-- C4.  In a segment with HOLD actions, the loop dispatches all hold
key-down events, then performs the single fixed 0.2 s wait, then dispatches
all hold key-up events (run_llm_eval.py lines 913-915 and 258-292): the
down events of the trace are exactly one per recognized hold key in order,
likewise the up events, and the trace splits around the 0.2 s wait with no
up event before it and no down event after it — so every hold key's
down-event precedes every hold key's up-event and no hold key is released
and re-pressed within the segment. -/
theorem C4_hold_ordering (seg : List ActionCode)
    (hne : segmentHoldCodes seg ≠ []) :
    ((segmentTrace seg).filter (fun e => e.isDown)
        = ((segmentHoldCodes seg).filterMap lookupPlaywrightKey).map SchedEv.down) ∧
    ((segmentTrace seg).filter (fun e => e.isUp)
        = ((segmentHoldCodes seg).filterMap lookupPlaywrightKey).map SchedEv.up) ∧
    ((segmentHoldCodes seg).filterMap lookupPlaywrightKey ≠ [] →
      ∃ pre post, segmentTrace seg = pre ++ [SchedEv.wait 200] ++ post ∧
        (∀ e ∈ pre, e.isUp = false) ∧ (∀ e ∈ post, e.isDown = false)) := by
  have hC : (if (segmentInstantCodes seg).isEmpty && (segmentHoldCodes seg).isEmpty
      then [SchedEv.wait 200] else ([] : List SchedEv)) = [] := by
    rw [if_neg]
    intro hcond
    rw [Bool.and_eq_true] at hcond
    exact hne (by simpa using hcond.2)
  have htr : segmentTrace seg
      = ((segmentInstantCodes seg).map execute_action_playwright).flatten
        ++ execute_hold_actions_playwright (segmentHoldCodes seg) 200 := by
    unfold segmentTrace
    simp only [hC, List.append_nil]
  have hA_down : (((segmentInstantCodes seg).map execute_action_playwright).flatten).filter
      (fun e => e.isDown) = [] := by
    rw [List.filter_eq_nil_iff]
    intro e he
    simp [(instant_block_no_downup _ e he).1]
  have hA_up : (((segmentInstantCodes seg).map execute_action_playwright).flatten).filter
      (fun e => e.isUp) = [] := by
    rw [List.filter_eq_nil_iff]
    intro e he
    simp [(instant_block_no_downup _ e he).2]
  by_cases hkeys : (segmentHoldCodes seg).filterMap lookupPlaywrightKey = []
  · have hH := execute_hold_trace_of_no_keys (segmentHoldCodes seg) 200 hkeys
    rw [htr, hH, List.append_nil]
    refine ⟨?_, ?_, ?_⟩
    · rw [hA_down, hkeys]
      rfl
    · rw [hA_up, hkeys]
      rfl
    · intro h
      exact absurd hkeys h
  · have hH := execute_hold_trace_of_keys (segmentHoldCodes seg) 200 hne hkeys
    rw [htr, hH]
    have hdown_keys : ((((segmentHoldCodes seg).filterMap lookupPlaywrightKey).map
        SchedEv.down).filter (fun e => e.isDown))
        = ((segmentHoldCodes seg).filterMap lookupPlaywrightKey).map SchedEv.down := by
      rw [List.filter_eq_self]
      intro e he
      rw [List.mem_map] at he
      obtain ⟨k, _, rfl⟩ := he
      rfl
    have hup_keys : ((((segmentHoldCodes seg).filterMap lookupPlaywrightKey).map
        SchedEv.up).filter (fun e => e.isUp))
        = ((segmentHoldCodes seg).filterMap lookupPlaywrightKey).map SchedEv.up := by
      rw [List.filter_eq_self]
      intro e he
      rw [List.mem_map] at he
      obtain ⟨k, _, rfl⟩ := he
      rfl
    have hdown_ups : ((((segmentHoldCodes seg).filterMap lookupPlaywrightKey).map
        SchedEv.up).filter (fun e => e.isDown)) = [] := by
      rw [List.filter_eq_nil_iff]
      intro e he
      rw [List.mem_map] at he
      obtain ⟨k, _, rfl⟩ := he
      simp [SchedEv.isDown]
    have hup_downs : ((((segmentHoldCodes seg).filterMap lookupPlaywrightKey).map
        SchedEv.down).filter (fun e => e.isUp)) = [] := by
      rw [List.filter_eq_nil_iff]
      intro e he
      rw [List.mem_map] at he
      obtain ⟨k, _, rfl⟩ := he
      simp [SchedEv.isUp]
    refine ⟨?_, ?_, ?_⟩
    · simp only [List.filter_append, hA_down, hdown_keys, hdown_ups]
      simp [SchedEv.isDown]
    · simp only [List.filter_append, hA_up, hup_keys, hup_downs]
      simp [SchedEv.isUp]
    · intro _
      refine ⟨((segmentInstantCodes seg).map execute_action_playwright).flatten
          ++ ((segmentHoldCodes seg).filterMap lookupPlaywrightKey).map SchedEv.down,
        ((segmentHoldCodes seg).filterMap lookupPlaywrightKey).map SchedEv.up, ?_, ?_, ?_⟩
      · simp [List.append_assoc]
      · intro e he
        rw [List.mem_append] at he
        rcases he with he | he
        · exact (instant_block_no_downup _ e he).2
        · rw [List.mem_map] at he
          obtain ⟨k, _, rfl⟩ := he
          rfl
      · intro e he
        rw [List.mem_map] at he
        obtain ⟨k, _, rfl⟩ := he
        rfl

theorem C4_hold_ordering_witness :
    segmentHoldCodes [ActionCode.hold 32, ActionCode.instant 38] ≠ [] ∧
    (((segmentTrace [ActionCode.hold 32, ActionCode.instant 38]).filter (fun e => e.isDown)
        = ((segmentHoldCodes [ActionCode.hold 32, ActionCode.instant 38]).filterMap
            lookupPlaywrightKey).map SchedEv.down) ∧
      ((segmentTrace [ActionCode.hold 32, ActionCode.instant 38]).filter (fun e => e.isUp)
        = ((segmentHoldCodes [ActionCode.hold 32, ActionCode.instant 38]).filterMap
            lookupPlaywrightKey).map SchedEv.up) ∧
      ((segmentHoldCodes [ActionCode.hold 32, ActionCode.instant 38]).filterMap
          lookupPlaywrightKey ≠ [] →
        ∃ pre post,
          segmentTrace [ActionCode.hold 32, ActionCode.instant 38]
            = pre ++ [SchedEv.wait 200] ++ post ∧
          (∀ e ∈ pre, e.isUp = false) ∧ (∀ e ∈ post, e.isDown = false))) :=
  ⟨by decide, C4_hold_ordering [ActionCode.hold 32, ActionCode.instant 38] (by decide)⟩

theorem listStartsWith_iff (p l : List Char) :
    listStartsWith p l = true ↔ p <+: l := by
  induction p generalizing l with
  | nil => simp [listStartsWith]
  | cons a ps ih =>
    cases l with
    | nil => simp [listStartsWith]
    | cons c cs =>
      simp only [listStartsWith, Bool.and_eq_true, decide_eq_true_eq, ih,
        List.cons_prefix_cons]

theorem findSub_isSome_iff (p l : List Char) :
    (findSub p l).isSome = true ↔ p <:+: l := by
  induction l with
  | nil =>
    unfold findSub
    by_cases hp : p.isEmpty
    · rw [if_pos hp]
      simp [List.isEmpty_iff.mp hp]
    · rw [if_neg hp]
      simp only [Option.isSome_none, Bool.false_eq_true, false_iff]
      intro hinf
      exact hp (by simp [List.isEmpty_iff, List.infix_nil.mp hinf])
  | cons c cs ih =>
    unfold findSub
    by_cases hs : listStartsWith p (c :: cs)
    · rw [if_pos hs]
      simp only [Option.isSome_some, true_iff]
      exact ((listStartsWith_iff p (c :: cs)).mp hs).isInfix
    · rw [if_neg hs]
      rw [ List.infix_cons_iff]
      have hm : ((findSub p cs).map (fun i => i + 1)).isSome = (findSub p cs).isSome := by
        cases findSub p cs <;> rfl
      rw [hm, ih]
      constructor
      · exact Or.inr
      · rintro (hpre | hinf)
        · exact absurd ((listStartsWith_iff p (c :: cs)).mpr hpre) hs
        · exact hinf

theorem containsSub_iff (p l : List Char) :
    containsSub p l = true ↔ p <:+: l := by
  unfold containsSub
  exact findSub_isSome_iff p l

/-- C5.  The retry wrapper of the Google adapter: classification is exactly
case-insensitive containment of one of the six fixed substrings
(`_is_quota_limit_error`, google_interface.py lines 26-37); with the default
`max_retries=1` and `retry_delay=5.0`, a retryable first failure followed by
a success returns the success after exactly one 5-second sleep; a retryable
first failure followed by any second failure propagates the second error
after exactly one retry (one sleep); a non-retryable error is propagated
immediately with no sleep. -/
theorem C5_retry_policy :
    (∀ msg : String, _is_quota_limit_error msg = true ↔
        ∃ p ∈ quotaPatterns, p.data <:+: (pyLower msg).data) ∧
    (∀ (α : Type) (call : Nat → Except String α) (e : String) (a : α),
        call 0 = Except.error e → _is_quota_limit_error e = true →
        call 1 = Except.ok a →
        _generate_content_with_retry call = (Except.ok a, [5000])) ∧
    (∀ (α : Type) (call : Nat → Except String α) (e1 e2 : String),
        call 0 = Except.error e1 → _is_quota_limit_error e1 = true →
        call 1 = Except.error e2 →
        _generate_content_with_retry call = (Except.error e2, [5000])) ∧
    (∀ (α : Type) (call : Nat → Except String α) (e : String),
        call 0 = Except.error e → _is_quota_limit_error e = false →
        _generate_content_with_retry call = (Except.error e, [])) := by
  refine ⟨?_, ?_, ?_, ?_⟩
  · intro msg
    unfold _is_quota_limit_error
    rw [List.any_eq_true]
    constructor
    · rintro ⟨p, hp, hc⟩
      exact ⟨p, hp, (containsSub_iff p.data (pyLower msg).data).mp hc⟩
    · rintro ⟨p, hp, hc⟩
      exact ⟨p, hp, (containsSub_iff p.data (pyLower msg).data).mpr hc⟩
  · intro α call e a h0 hq h1
    unfold _generate_content_with_retry retryLoop
    rw [h0]
    simp only [hq, if_true]
    unfold retryLoop
    rw [h1]
  · intro α call e1 e2 h0 hq h1
    unfold _generate_content_with_retry retryLoop
    rw [h0]
    simp only [hq, if_true]
    unfold retryLoop
    rw [h1]
  · intro α call e h0 hq
    unfold _generate_content_with_retry retryLoop
    rw [h0]
    simp [hq]

theorem C5_retry_policy_witness :
    _is_quota_limit_error "429 Rate Limit" = true ∧
      _generate_content_with_retry
          (fun n => if n = 0 then (Except.error "429 Rate Limit" : Except String Nat)
                    else Except.ok 7)
        = (Except.ok 7, [5000]) :=
  ⟨by decide,
   C5_retry_policy.2.1 Nat
     (fun n => if n = 0 then (Except.error "429 Rate Limit" : Except String Nat)
               else Except.ok 7)
     "429 Rate Limit" 7 rfl (by decide) rfl⟩

/-- C6.  When end-of-game was observed in either per-cycle check (before
pausing, or after the model call), the handler increments the episode
counter by exactly 1, zeroes the step counter, and clears both per-episode
frame memories (`frame_history` and `last_render_frames`); the Esc unpause
and the restart key sequence are issued only under that already-updated
state (run_llm_eval.py lines 807-842: the assignments at lines 814-818
precede the key dispatch at lines 822-827). -/
theorem C6_episode_reset (α : Type) (endedBeforePause endedAfterLLM stillEnded : Bool)
    (st : LoopState α)
    (h : endedBeforePause = true ∨ endedAfterLLM = true) :
    (endOfGameHandling endedBeforePause endedAfterLLM stillEnded st).1.episodeCount
        = st.episodeCount + 1 ∧
    (endOfGameHandling endedBeforePause endedAfterLLM stillEnded st).1.stepCount = 0 ∧
    (endOfGameHandling endedBeforePause endedAfterLLM stillEnded st).1.frameHistory = [] ∧
    (endOfGameHandling endedBeforePause endedAfterLLM stillEnded st).1.lastRenderFrames
        = [] ∧
    (endOfGameHandling endedBeforePause endedAfterLLM stillEnded st).2
        = execute_action_playwright 27 ++ restart_game_trace stillEnded := by
  have hcond : (endedAfterLLM || endedBeforePause) = true := by
    rcases h with h | h <;> simp [h]
  unfold endOfGameHandling
  rw [if_pos hcond]
  exact ⟨rfl, rfl, rfl, rfl, rfl⟩

theorem C6_episode_reset_witness :
    (endOfGameHandling false true false
        (⟨3, 7, [0], [1]⟩ : LoopState Nat)).1.episodeCount = 3 + 1 ∧
    (endOfGameHandling false true false
        (⟨3, 7, [0], [1]⟩ : LoopState Nat)).1.stepCount = 0 ∧
    (endOfGameHandling false true false
        (⟨3, 7, [0], [1]⟩ : LoopState Nat)).1.frameHistory = [] ∧
    (endOfGameHandling false true false
        (⟨3, 7, [0], [1]⟩ : LoopState Nat)).1.lastRenderFrames = [] ∧
    (endOfGameHandling false true false (⟨3, 7, [0], [1]⟩ : LoopState Nat)).2
        = execute_action_playwright 27 ++ restart_game_trace false :=
  C6_episode_reset Nat false true false ⟨3, 7, [0], [1]⟩ (Or.inr rfl)

/-- A block is a thinking/reasoning block. -/
def AnthropicBlock.isThinking : AnthropicBlock → Bool
  | AnthropicBlock.thinking _ => true
  | _ => false

/-- C9.  Corrected statement: the adapter adds `reasoning_tokens` (the
length-heuristic estimate of the reasoning text) and folds it into
`total_tokens` exactly when the extracted reasoning text is present *and
non-empty* (`if reasoning_text:` at anthropic_interface.py line 278 is falsy
on the empty string); otherwise `total_tokens = input_tokens +
output_tokens` and no `reasoning_tokens` entry is set. -/
theorem C9_token_usage (blocks : List AnthropicBlock) (inTok outTok : Nat)
    (model : Option String) :
    (∀ r, extractReasoningText blocks = some r → r ≠ "" →
      anthropicTokenUsage blocks inTok outTok model
        = { input_tokens := inTok, output_tokens := outTok,
            total_tokens := inTok + outTok + estimate_tokens r model,
            reasoning_tokens := some (estimate_tokens r model) }) ∧
    ((extractReasoningText blocks = none ∨ extractReasoningText blocks = some "") →
      anthropicTokenUsage blocks inTok outTok model
        = { input_tokens := inTok, output_tokens := outTok,
            total_tokens := inTok + outTok, reasoning_tokens := none }) := by
  constructor
  · intro r hr hne
    unfold anthropicTokenUsage
    rw [hr]
    simp [hne]
  · rintro (hr | hr)
    · unfold anthropicTokenUsage
      rw [hr]
    · unfold anthropicTokenUsage
      rw [hr]
      simp

theorem C9_token_usage_witness :
    extractReasoningText [AnthropicBlock.thinking "abcdefgh"] = some "abcdefgh" ∧
      anthropicTokenUsage [AnthropicBlock.thinking "abcdefgh"] 1 2 none
        = { input_tokens := 1, output_tokens := 2,
            total_tokens := 1 + 2 + estimate_tokens "abcdefgh" none,
            reasoning_tokens := some (estimate_tokens "abcdefgh" none) } :=
  ⟨by decide,
   (C9_token_usage [AnthropicBlock.thinking "abcdefgh"] 1 2 none).1 "abcdefgh"
     (by decide) (by decide)⟩

/-- C9, counterexample to the claim as stated: a response whose (only)
thinking block has empty content *does* contain a thinking/reasoning block,
yet the adapter sets no `reasoning_tokens` (the estimate would be 1, not 0)
and reports `total_tokens = input + output`. -/
theorem C9_counterexample :
    ([AnthropicBlock.thinking ""].any AnthropicBlock.isThinking) = true ∧
    anthropicTokenUsage [AnthropicBlock.thinking ""] 10 5 (some "claude-3-5-sonnet-20241022")
      = { input_tokens := 10, output_tokens := 5, total_tokens := 15,
          reasoning_tokens := none } ∧
    estimate_tokens "" (some "claude-3-5-sonnet-20241022") = 1 ∧
    (anthropicTokenUsage [AnthropicBlock.thinking ""] 10 5
        (some "claude-3-5-sonnet-20241022")).total_tokens
      ≠ 10 + 5 + estimate_tokens "" (some "claude-3-5-sonnet-20241022") := by
  refine ⟨by decide, by decide, by decide, by decide⟩

/-- C10.  Every entry appended by `append_history_entry` lands (as a value
copy — `copy.deepcopy` is the identity on immutable values) in the archival
`full_content_history`, and no operation of the decision loop ever removes
from it: after any interleaving of appends and active-history clears, the
archival history is the initial archival history followed by exactly the
appended entries, unmodified and in append order. -/
theorem C10_archival_history (α : Type) (ops : List (HistOp α)) (h0 : Histories α) :
    (runHistOps h0 ops).full_content_history
      = h0.full_content_history ++ appendedEntries ops := by
  induction ops generalizing h0 with
  | nil => simp [runHistOps, appendedEntries]
  | cons op rest ih =>
    cases op with
    | append e =>
      rw [runHistOps, ih]
      unfold applyHistOp append_history_entry appendedEntries deepcopy
      simp [List.filterMap_cons]
    | clearActive =>
      rw [runHistOps, ih]
      unfold applyHistOp appendedEntries
      simp [List.filterMap_cons]

theorem C10_archival_history_witness :
    (runHistOps (⟨[], []⟩ : Histories Nat)
        [HistOp.append 1, HistOp.clearActive, HistOp.append 2]).full_content_history
      = ([] : List Nat)
          ++ appendedEntries [HistOp.append 1, HistOp.clearActive, HistOp.append 2] :=
  C10_archival_history Nat [HistOp.append 1, HistOp.clearActive, HistOp.append 2] ⟨[], []⟩

end AigamestoreHarness
